import Mathlib

/-!
Verification development for the real-time event-relay gateway of this
repository (the websocket job-event service).  The gateway implementation
itself (`index.ts` of the websocket service) is not shipped in this source
snapshot; only its test suite is.  The definitions below are therefore
modelled from the specification document, with the shipped tests used to pin
the behaviour at the concrete inputs they exercise.  State is embedded as
association lists (mirroring the JS objects `sockets` and `channels`), I/O
effects (pushes, pings, terminations, range reads, status lines) are made
explicit as returned values, and fallible operations return `Except`.
-/

/-- Splits a list of characters on a separator character; mirrors JS
`String.prototype.split` with a single-character separator (always returns at
least one, possibly empty, piece). -/
def splitOnCh (sep : Char) : List Char → List (List Char)
  | [] => [[]]
  | c :: cs =>
    match splitOnCh sep cs with
    | [] => if c = sep then [[], [c]] else [[c]]
    | h :: t => if c = sep then [] :: h :: t else (c :: h) :: t

/-- Value of a decimal digit character, `none` on a non-digit. -/
def digitVal (c : Char) : Option Nat :=
  if c.isDigit then some (c.toNat - 48) else none

/-- Accumulating decimal parser over characters. -/
def parseNatAux : List Char → Nat → Option Nat
  | [], acc => some acc
  | c :: cs, acc =>
    match digitVal c with
    | some d => parseNatAux cs (acc * 10 + d)
    | none => none

/-- Parses a non-empty all-digit character list as a natural number. -/
def parseNat : List Char → Option Nat
  | [] => none
  | c :: cs => parseNatAux (c :: cs) 0

/-- Parses an optionally-minus-signed decimal integer. -/
def parseInt : List Char → Option Int
  | [] => none
  | c :: cs =>
    if c = '-' then (parseNat cs).map (fun n => -(n : Int))
    else (parseNat (c :: cs)).map (fun n => (n : Int))

/-- Modelled from the spec: the cursor-increment function `incrementId` of the
missing gateway implementation.  "Cursor increment is defined as: parse the
two components; if both parse as integers, increment the sequence component by
one and re-serialize; otherwise return the input unchanged." -/
def incrementId (id : String) : String :=
  match splitOnCh '-' id.toList with
  | [ms, seq] =>
    match parseInt ms, parseInt seq with
    | some _, some k => String.mk ms ++ "-" ++ toString (k + 1)
    | _, _ => id
  | _ => id

/-- Decidable shape test for a well-formed cursor `"<n>-<k>"`: exactly two
components, both parsing as integers. -/
def isWellFormedCursor (s : String) : Bool :=
  match splitOnCh '-' s.toList with
  | [ms, seq] => (parseInt ms).isSome && (parseInt seq).isSome
  | _ => false

/-! ## HTTP front door (plain requests) -/

/-- Observable effect of answering one plain HTTP request: the sequence of
status lines written (`writeHead` calls) and the response body (`end`). -/
structure HttpResponse where
  statuses : List Nat
  body : String
deriving DecidableEq, Repr

/-- The path component of a request URL: everything before the first `?`. -/
def pathOf (url : String) : String :=
  String.mk ((splitOnCh '?' url.toList).headD [])

/-- Modelled from the spec: the plain-request handler `httpRequest` of the
missing gateway implementation.  "Plain request to a `/health` path → respond
`200 OK` with body `OK`; any other plain path → `404 Not Found` with body
`Not Found`." -/
def httpRequest (url : String) : HttpResponse :=
  if pathOf url = "/health" then { statuses := [200], body := "OK" }
  else { statuses := [404], body := "Not Found" }

/-! ## Durable-log range reads (catch-up) -/

/-- One durable-log record: a monotonic cursor and the decoded payload fields
of its JSON data. -/
structure LogEntry where
  cursor : String
  fields : List (String × String)
deriving DecidableEq, Repr

/-- Log key-prefix used to derive a channel's log name (configuration value
`streamPrefix`, arbitrary but fixed here). -/
def streamKeyBase : String := "async-events-"

/-- Parameters of one catch-up range read. -/
structure FetchParams where
  sessionId : String
  startId : String
  endId : String
deriving DecidableEq, Repr

/-- Observable effects of one catch-up range read: the range queries issued
against the durable log and the batches handed to the listener. -/
structure FetchEffects where
  xrangeCalls : List (String × String × String)
  listenerCalls : List (List LogEntry)
deriving DecidableEq, Repr

/-- Modelled from the spec: `fetchRangeFromStream` of the missing gateway
implementation.  It issues one range read over the channel-derived log key;
a non-empty result batch is handed to the listener; "errors reading the log
... are logged and swallowed".  The durable log's answer is passed in as an
`Except` value; the function returning a plain `FetchEffects` (not an
`Except`) embeds the fact that a log failure never propagates to the caller. -/
def fetchRangeFromStream (p : FetchParams) (xrangeResult : Except String (List LogEntry)) :
    FetchEffects :=
  { xrangeCalls := [(streamKeyBase ++ p.sessionId, p.startId, p.endId)]
    listenerCalls :=
      match xrangeResult with
      | .ok (r :: rs) => [r :: rs]
      | _ => [] }

/-! ## Claims C7, C9, C8 -/

/-- Claim C7: for every cursor of the well-formed shape `"<n>-<k>"` with both
components parsing as integers, `incrementId` returns `"<n>-<k+1>"` (sequence
incremented, millis unchanged); every input not of that shape is returned
unchanged. -/
theorem C7_incrementId (s : String) :
    (∀ ms seq k, splitOnCh '-' s.toList = [ms, seq] →
      (parseInt ms).isSome = true → parseInt seq = some k →
      incrementId s = String.mk ms ++ "-" ++ toString (k + 1))
    ∧ (isWellFormedCursor s = false → incrementId s = s) := by
  constructor
  · intro ms seq k hsplit hms hseq
    rcases Option.isSome_iff_exists.mp hms with ⟨m, hm⟩
    have hsplit' : splitOnCh '-' s.data = [ms, seq] := hsplit
    simp [incrementId, hsplit', hm, hseq]
  · intro h
    unfold incrementId
    unfold isWellFormedCursor at h
    rcases hsplit : splitOnCh '-' s.toList with _ | ⟨a, _ | ⟨b, _ | _⟩⟩ <;>
      (have hsplit' : splitOnCh '-' s.data = _ := hsplit) <;>
      simp [hsplit'] at h ⊢
    rcases ha : parseInt a with _ | m <;> rcases hb : parseInt b with _ | k <;>
      simp [ha, hb] at h ⊢

/-- Witness for C7 at the concrete cursors used by the test suite:
`"1607477697866-0"` increments to `"1607477697866-1"` and the malformed
`"foo"` is returned unchanged. -/
theorem C7_incrementId_witness :
    incrementId "1607477697866-0" = "1607477697866-1" ∧ incrementId "foo" = "foo" := by
  refine ⟨?_, ?_⟩
  · have h := (C7_incrementId "1607477697866-0").1
      "1607477697866".toList "0".toList 0 (by decide) (by decide) (by decide)
    simpa using h
  · exact (C7_incrementId "foo").2 (by decide)

/-- Claim C9: a plain request to path `/health` is answered with status 200
and body `"OK"`; any other path with status 404 and body `"Not Found"`; in
both cases exactly one status line is written. -/
theorem C9_httpRequest (url : String) :
    (pathOf url = "/health" → httpRequest url = { statuses := [200], body := "OK" })
    ∧ (pathOf url ≠ "/health" → httpRequest url = { statuses := [404], body := "Not Found" })
    ∧ (httpRequest url).statuses.length = 1 := by
  refine ⟨fun h => by simp [httpRequest, h], fun h => by simp [httpRequest, h], ?_⟩
  unfold httpRequest
  by_cases h : pathOf url = "/health" <;> simp [h]

/-- Witness for C9 at the requests of the test suite: `/health` yields
`200 OK`, `/unsupported` yields `404 Not Found`. -/
theorem C9_httpRequest_witness :
    httpRequest "/health" = { statuses := [200], body := "OK" }
    ∧ httpRequest "/unsupported" = { statuses := [404], body := "Not Found" } :=
  ⟨(C9_httpRequest "/health").1 (by decide),
   (C9_httpRequest "/unsupported").2.1 (by decide)⟩

/-- Claim C8: when the durable-log range read fails, the failure is swallowed:
`fetchRangeFromStream` still returns normally (its type carries no error), the
listener is never invoked, and the single range query was issued. -/
theorem C8_fetchRange_error_swallowed (p : FetchParams) (err : String) :
    fetchRangeFromStream p (.error err) =
      { xrangeCalls := [(streamKeyBase ++ p.sessionId, p.startId, p.endId)]
        listenerCalls := [] } := by
  simp [fetchRangeFromStream]

/-! ## Connection registry -/

/-- Transport states of a duplex connection (the `ws` ready states). -/
inductive ReadyState
  | connecting
  | opened
  | closing
  | closed
deriving DecidableEq, Repr

/-- The transport handle of one connection, as observable by the gateway: its
ready state and whether a push on it throws (models a broken transport whose
`send` raises). -/
structure Transport where
  readyState : ReadyState
  sendFails : Bool
deriving DecidableEq, Repr

/-- Modelled from the spec: the per-connection record `SocketInstance` of the
missing gateway implementation — transport handle, owning channel, and
`pongTs`, the timestamp of the last liveness response. -/
structure SocketInstance where
  ws : Transport
  channel : String
  pongTs : Nat
deriving DecidableEq, Repr

/-- Modelled from the spec: the in-memory process-wide state of the missing
gateway implementation — the `sockets` map (socket id → instance), the
`channels` map (channel → ordered membership, a JS object keyed uniquely),
the fresh-id source, the two metric counters, and the live-tip cursor
`lastFirehoseId` maintained by the dispatcher. -/
structure GatewayState where
  sockets : List (Nat × SocketInstance)
  channels : List (String × List Nat)
  nextSocketId : Nat
  connectedCount : Nat
  sendErrorCount : Nat
  lastFirehoseId : Option String
deriving DecidableEq, Repr

/-- The gateway state at process start: everything empty. -/
def emptyGateway : GatewayState :=
  { sockets := [], channels := [], nextSocketId := 0,
    connectedCount := 0, sendErrorCount := 0, lastFirehoseId := none }

/-- Appends a socket id to a channel's membership, creating the entry when the
channel is not yet present. -/
def addMember (chs : List (String × List Nat)) (c : String) (id : Nat) :
    List (String × List Nat) :=
  match chs with
  | [] => [(c, [id])]
  | (c', ids) :: rest =>
    if c' = c then (c', ids ++ [id]) :: rest
    else (c', ids) :: addMember rest c id

/-- Removes a socket id from a channel's membership; a membership emptied by
the removal is deleted outright (no empty set is kept). -/
def removeMember (chs : List (String × List Nat)) (c : String) (id : Nat) :
    List (String × List Nat) :=
  match chs with
  | [] => []
  | (c', ids) :: rest =>
    if c' = c then
      let ids' := ids.filter (fun x => x ≠ id)
      if ids' = [] then rest else (c', ids') :: rest
    else (c', ids) :: removeMember rest c id

/-- Replaces a channel's membership list. -/
def setMembers (chs : List (String × List Nat)) (c : String) (ids : List Nat) :
    List (String × List Nat) :=
  match chs with
  | [] => []
  | (c', l) :: rest =>
    if c' = c then (c', ids) :: rest
    else (c', l) :: setMembers rest c ids

/-- Deletes a channel's entry. -/
def eraseChannel (chs : List (String × List Nat)) (c : String) :
    List (String × List Nat) :=
  match chs with
  | [] => []
  | (c', l) :: rest =>
    if c' = c then rest else (c', l) :: eraseChannel rest c

/-- Modelled from the spec: `membersOf` of the missing gateway implementation —
the ordered membership of a channel, empty for an unknown channel. -/
def membersOf (st : GatewayState) (c : String) : List Nat :=
  match st.channels.lookup c with
  | some ids => ids
  | none => []

/-- Modelled from the spec: `trackClient` of the missing gateway
implementation — generates a fresh socket identifier, stores the connection
under it, appends it to the channel's membership (creating the set if
absent), and increments the connected-clients metric. -/
def trackClient (st : GatewayState) (c : String) (inst : SocketInstance) :
    GatewayState × Nat :=
  let id := st.nextSocketId
  ({ st with
      sockets := st.sockets ++ [(id, inst)]
      channels := addMember st.channels c id
      nextSocketId := id + 1
      connectedCount := st.connectedCount + 1 }, id)

/-- Modelled from the spec: `forget` of the missing gateway implementation —
removes the connection entry and its channel membership, deleting the channel
when the membership becomes empty; unknown ids are a no-op. -/
def forget (st : GatewayState) (id : Nat) : GatewayState :=
  match st.sockets.lookup id with
  | none => st
  | some inst =>
    { st with
        sockets := st.sockets.filter (fun p => p.1 ≠ id)
        channels := removeMember st.channels inst.channel id }

/-- Well-formedness of the registry: the JS objects `sockets` and `channels`
have unique keys. -/
def RegistryWF (st : GatewayState) : Prop :=
  (st.sockets.map Prod.fst).Nodup ∧ (st.channels.map Prod.fst).Nodup

/-! ## Association-list lemmas -/

/-- A key absent from an association list looks up to `none`. -/
theorem lookup_none_of_not_mem_keys {α β : Type} [BEq α] [LawfulBEq α]
    (l : List (α × β)) (a : α) (h : a ∉ l.map Prod.fst) : l.lookup a = none := by
  induction l with
  | nil => rfl
  | cons p t ih =>
    obtain ⟨k, v⟩ := p
    simp only [List.map_cons, List.mem_cons] at h
    push_neg at h
    have hne : (a == k) = false := beq_eq_false_iff_ne.mpr h.1
    simp [List.lookup, hne, ih h.2]

/-- In an association list with unique keys, a member pair is what its key
looks up to. -/
theorem lookup_some_of_mem_nodup {α β : Type} [BEq α] [LawfulBEq α]
    (l : List (α × β)) (a : α) (b : β)
    (hn : (l.map Prod.fst).Nodup) (hm : (a, b) ∈ l) : l.lookup a = some b := by
  induction l with
  | nil => cases hm
  | cons p t ih =>
    obtain ⟨k, v⟩ := p
    simp only [List.map_cons, List.nodup_cons] at hn
    rcases List.mem_cons.mp hm with heq | ht
    · obtain ⟨rfl, rfl⟩ := Prod.mk.injEq .. ▸ heq
      simp [List.lookup]
    · have ha : a ∈ t.map Prod.fst := List.mem_map.mpr ⟨(a, b), ht, rfl⟩
      have hne : (a == k) = false := beq_eq_false_iff_ne.mpr (fun h => hn.1 (h ▸ ha))
      simp [List.lookup, hne, ih hn.2 ht]

/-- Lookup at the head key of an association list. -/
theorem lookup_cons_self {α β : Type} [BEq α] [LawfulBEq α] (k : α) (v : β)
    (t : List (α × β)) : ((k, v) :: t).lookup k = some v := by
  simp [List.lookup]

/-- Lookup skips a head entry with a different key. -/
theorem lookup_cons_ne {α β : Type} [BEq α] [LawfulBEq α] (x k : α) (v : β)
    (t : List (α × β)) (h : (x == k) = false) : ((k, v) :: t).lookup x = t.lookup x := by
  simp [List.lookup, h]

/-- Filtering out one key leaves lookups of the other keys unchanged. -/
theorem lookup_filter_key_ne {β : Type} (l : List (Nat × β)) (id j : Nat) (h : id ≠ j) :
    (l.filter (fun p => p.1 ≠ j)).lookup id = l.lookup id := by
  induction l with
  | nil => rfl
  | cons p t ih =>
    obtain ⟨k, v⟩ := p
    rw [List.filter_cons]
    by_cases hk : k = j
    · rw [if_neg (by simp [hk])]
      have hne : (id == k) = false := by
        subst hk; exact beq_eq_false_iff_ne.mpr h
      rw [ih, lookup_cons_ne id k v t hne]
    · rw [if_pos (by simp [hk])]
      by_cases hik : id = k
      · subst hik
        rw [lookup_cons_self, lookup_cons_self]
      · have hne : (id == k) = false := beq_eq_false_iff_ne.mpr hik
        rw [lookup_cons_ne id k v _ hne, lookup_cons_ne id k v t hne, ih]

/-- Filtering out one key removes it from the lookup domain. -/
theorem lookup_filter_key_self {β : Type} (l : List (Nat × β)) (j : Nat) :
    (l.filter (fun p => p.1 ≠ j)).lookup j = none := by
  induction l with
  | nil => rfl
  | cons p t ih =>
    obtain ⟨k, v⟩ := p
    rw [List.filter_cons]
    by_cases hk : k = j
    · rw [if_neg (by simp [hk])]; exact ih
    · rw [if_pos (by simp [hk])]
      have hne : (j == k) = false := beq_eq_false_iff_ne.mpr (fun he => hk he.symm)
      rw [lookup_cons_ne j k v _ hne, ih]

/-- `forget` removes the forgotten id from the socket map. -/
theorem forget_sockets_lookup_self (st : GatewayState) (id : Nat) :
    (forget st id).sockets.lookup id = none := by
  unfold forget
  cases h : st.sockets.lookup id with
  | none => simpa using h
  | some inst => simpa using lookup_filter_key_self st.sockets id

/-- `forget` leaves every other socket's entry unchanged. -/
theorem forget_sockets_lookup_ne (st : GatewayState) (id j : Nat) (h : id ≠ j) :
    (forget st j).sockets.lookup id = st.sockets.lookup id := by
  unfold forget
  cases hj : st.sockets.lookup j with
  | none => rfl
  | some inst => simpa using lookup_filter_key_ne st.sockets id j h

/-- `forget` does not touch the metric counters. -/
theorem forget_sendErrorCount (st : GatewayState) (id : Nat) :
    (forget st id).sendErrorCount = st.sendErrorCount := by
  unfold forget
  cases st.sockets.lookup id <;> rfl

/-- Lookup of a channel after removing one member from it: the membership is
filtered, and the entry disappears when the filter empties it. -/
theorem removeMember_lookup (chs : List (String × List Nat)) (c : String) (f : Nat)
    (hn : (chs.map Prod.fst).Nodup) (l : List Nat) (hlk : chs.lookup c = some l) :
    (removeMember chs c f).lookup c =
      if l.filter (fun x => x ≠ f) = [] then none
      else some (l.filter (fun x => x ≠ f)) := by
  induction chs with
  | nil => cases hlk
  | cons p t ih =>
    obtain ⟨c', ids⟩ := p
    simp only [List.map_cons, List.nodup_cons] at hn
    by_cases hc : c' = c
    · subst hc
      rw [lookup_cons_self] at hlk
      obtain rfl : ids = l := Option.some.inj hlk
      unfold removeMember
      rw [if_pos rfl]
      by_cases hf : ids.filter (fun x => x ≠ f) = []
      · rw [if_pos hf, if_pos hf]
        exact lookup_none_of_not_mem_keys t c' hn.1
      · rw [if_neg hf, if_neg hf, lookup_cons_self]
    · have hne : (c == c') = false := beq_eq_false_iff_ne.mpr (fun h => hc h.symm)
      rw [lookup_cons_ne c c' ids t hne] at hlk
      unfold removeMember
      rw [if_neg hc, lookup_cons_ne c c' ids _ hne]
      exact ih hn.2 hlk

/-! ## Event dispatch (fan-out) -/

/-- Modelled from the spec: the send-error metric bump
(`ws_client_send_error`). -/
def incrSendError (st : GatewayState) : GatewayState :=
  { st with sendErrorCount := st.sendErrorCount + 1 }

/-- The message pushed to a connection for one log entry: the entry's own
payload fields with the entry's cursor injected under `id` — no other field
added or removed. -/
def pushMessage (e : LogEntry) : List (String × String) :=
  ("id", e.cursor) :: e.fields

/-- One push attempt of a dispatch pass: look up the member's connection and
push the message on its transport; a transport that throws on push instead has
the connection torn down via `forget` and the send-error metric incremented,
and the pass continues. -/
def dispatchStep (e : LogEntry) (acc : GatewayState × List (Nat × List (String × String)))
    (id : Nat) : GatewayState × List (Nat × List (String × String)) :=
  match acc.1.sockets.lookup id with
  | none => acc
  | some inst =>
    if inst.ws.sendFails then (incrSendError (forget acc.1 id), acc.2)
    else (acc.1, acc.2 ++ [(id, pushMessage e)])

/-- Modelled from the spec: the per-entry part of `processStreamResults` of
the missing gateway implementation — parse the entry's payload, extract
`channel_id`, and push the entry (augmented with its cursor `id`) to every
member connection of that channel, best-effort per connection. -/
def processEntry (acc : GatewayState × List (Nat × List (String × String)))
    (e : LogEntry) : GatewayState × List (Nat × List (String × String)) :=
  match e.fields.lookup "channel_id" with
  | none => acc
  | some c => (membersOf acc.1 c).foldl (dispatchStep e) acc

/-- Modelled from the spec: `processStreamResults` of the missing gateway
implementation — dispatches a batch of newly appended log entries, returning
the new registry state and the sequence of push calls performed (socket id,
message).  The function is total: no per-connection failure escapes to the
caller. -/
def processStreamResults (st : GatewayState) (entries : List LogEntry) :
    GatewayState × List (Nat × List (String × String)) :=
  entries.foldl processEntry (st, [])

/-- A dispatch pass over members whose transports all push successfully leaves
the state unchanged and appends one push per member, in membership order. -/
theorem dispatch_fold_ok (e : LogEntry) (ids : List Nat) :
    ∀ (st : GatewayState) (ps : List (Nat × List (String × String))),
    (∀ id ∈ ids, ∃ inst, st.sockets.lookup id = some inst ∧ inst.ws.sendFails = false) →
    ids.foldl (dispatchStep e) (st, ps) =
      (st, ps ++ ids.map (fun i => (i, pushMessage e))) := by
  induction ids with
  | nil => intro st ps _; simp
  | cons id t ih =>
    intro st ps h
    obtain ⟨inst, hlk, hfail⟩ := h id (by simp)
    have hstep : dispatchStep e (st, ps) id = (st, ps ++ [(id, pushMessage e)]) := by
      simp [dispatchStep, hlk, hfail]
    rw [List.foldl_cons, hstep, ih st _ (fun i hi => h i (by simp [hi]))]
    simp

/-- Claim C1: dispatching one log entry whose `channel_id` has N registered
connections causes exactly N push calls, one per connection in membership
order, and each pushed message is exactly the entry's payload fields plus the
entry's cursor injected under `id`. -/
theorem C1_fanout (st : GatewayState) (e : LogEntry) (c : String)
    (hch : e.fields.lookup "channel_id" = some c)
    (hok : ∀ id ∈ membersOf st c,
      ∃ inst, st.sockets.lookup id = some inst ∧ inst.ws.sendFails = false) :
    processStreamResults st [e] =
      (st, (membersOf st c).map (fun i => (i, ("id", e.cursor) :: e.fields))) := by
  have h1 : processStreamResults st [e] = (membersOf st c).foldl (dispatchStep e) (st, []) := by
    simp only [processStreamResults, List.foldl_cons, List.foldl_nil, processEntry, hch]
  rw [h1, dispatch_fold_ok e (membersOf st c) st [] hok]
  simp [pushMessage]

/-- Witness for C1 on a concrete registry: two connections on channel `"ch"`,
one dispatched entry, two pushes each carrying the payload plus the cursor
under `id`. -/
theorem C1_fanout_witness :
    processStreamResults
      { sockets := [(0, ⟨⟨.opened, false⟩, "ch", 5⟩), (1, ⟨⟨.opened, false⟩, "ch", 5⟩)],
        channels := [("ch", [0, 1])], nextSocketId := 2, connectedCount := 2,
        sendErrorCount := 0, lastFirehoseId := none }
      [⟨"7-0", [("channel_id", "ch"), ("status", "done")]⟩] =
    ({ sockets := [(0, ⟨⟨.opened, false⟩, "ch", 5⟩), (1, ⟨⟨.opened, false⟩, "ch", 5⟩)],
        channels := [("ch", [0, 1])], nextSocketId := 2, connectedCount := 2,
        sendErrorCount := 0, lastFirehoseId := none },
      [(0, [("id", "7-0"), ("channel_id", "ch"), ("status", "done")]),
       (1, [("id", "7-0"), ("channel_id", "ch"), ("status", "done")])]) := by
  refine Eq.trans (C1_fanout _ _ "ch" (by decide) ?_) (by decide)
  intro id hid
  have h2 : id = 0 ∨ id = 1 := by
    simpa [membersOf, List.lookup] using hid
  rcases h2 with rfl | rfl
  · exact ⟨⟨⟨.opened, false⟩, "ch", 5⟩, by decide, rfl⟩
  · exact ⟨⟨⟨.opened, false⟩, "ch", 5⟩, by decide, rfl⟩

/-- Claim C2: if, during a dispatch pass over the members `pre ++ f :: post`
of a channel, pushing to connection `f` throws, then every other member still
receives the payload, `f` is removed from the registry (later `membersOf`
excludes it, and a channel emptied by the removal is deleted), the send-error
metric is incremented by exactly one, and the pass returns normally (the model
is a total function, so the failure cannot propagate). -/
theorem C2_push_failure_isolation (st : GatewayState) (e : LogEntry) (c : String)
    (pre post : List Nat) (f : Nat) (instF : SocketInstance)
    (hch : e.fields.lookup "channel_id" = some c)
    (hmem : st.channels.lookup c = some (pre ++ f :: post))
    (hnC : (st.channels.map Prod.fst).Nodup)
    (hf : st.sockets.lookup f = some instF)
    (hfc : instF.channel = c)
    (hffail : instF.ws.sendFails = true)
    (hpre : f ∉ pre) (hpost : f ∉ post)
    (hok : ∀ id ∈ pre ++ post,
      ∃ inst, st.sockets.lookup id = some inst ∧ inst.ws.sendFails = false) :
    (processStreamResults st [e]).2 = (pre ++ post).map (fun i => (i, pushMessage e))
    ∧ (processStreamResults st [e]).1.sendErrorCount = st.sendErrorCount + 1
    ∧ f ∉ membersOf (processStreamResults st [e]).1 c
    ∧ (processStreamResults st [e]).1.sockets.lookup f = none
    ∧ (pre = [] → post = [] →
        (processStreamResults st [e]).1.channels.lookup c = none) := by
  have hmembers : membersOf st c = pre ++ f :: post := by
    unfold membersOf; rw [hmem]
  have hres : processStreamResults st [e] =
      (incrSendError (forget st f), (pre ++ post).map (fun i => (i, pushMessage e))) := by
    have h1 : processStreamResults st [e] =
        (membersOf st c).foldl (dispatchStep e) (st, []) := by
      simp only [processStreamResults, List.foldl_cons, List.foldl_nil, processEntry, hch]
    rw [h1, hmembers, List.foldl_append,
      dispatch_fold_ok e pre st [] (fun i hi => hok i (List.mem_append_left _ hi))]
    simp only [List.nil_append, List.foldl_cons]
    have hstepf : dispatchStep e (st, pre.map (fun i => (i, pushMessage e))) f
        = (incrSendError (forget st f), pre.map (fun i => (i, pushMessage e))) := by
      simp [dispatchStep, hf, hffail]
    rw [hstepf]
    have hok2 : ∀ id ∈ post, ∃ inst,
        (incrSendError (forget st f)).sockets.lookup id = some inst
        ∧ inst.ws.sendFails = false := by
      intro id hid
      obtain ⟨inst, hlk, hff⟩ := hok id (List.mem_append_right _ hid)
      refine ⟨inst, ?_, hff⟩
      have hne : id ≠ f := fun h => hpost (h ▸ hid)
      show (forget st f).sockets.lookup id = some inst
      rw [forget_sockets_lookup_ne st id f hne]
      exact hlk
    rw [dispatch_fold_ok e post _ _ hok2]
    simp
  have hch2 : (incrSendError (forget st f)).channels = removeMember st.channels c f := by
    simp [incrSendError, forget, hf, hfc]
  have hfpre : List.filter (fun x => x ≠ f) pre = pre :=
    List.filter_eq_self.mpr (fun a ha => decide_eq_true (fun h => hpre (h ▸ ha)))
  have hfpost : List.filter (fun x => x ≠ f) post = post :=
    List.filter_eq_self.mpr (fun a ha => decide_eq_true (fun h => hpost (h ▸ ha)))
  have hfilter : List.filter (fun x => x ≠ f) (pre ++ f :: post) = pre ++ post := by
    rw [List.filter_append, List.filter_cons, if_neg (by simp), hfpre, hfpost]
  have hrm := removeMember_lookup st.channels c f hnC _ hmem
  rw [hfilter] at hrm
  rw [hres]
  refine ⟨rfl, ?_, ?_, ?_, ?_⟩
  · show (incrSendError (forget st f)).sendErrorCount = st.sendErrorCount + 1
    simp [incrSendError, forget_sendErrorCount]
  · unfold membersOf
    rw [hch2, hrm]
    by_cases h0 : pre ++ post = []
    · rw [if_pos h0]; simp
    · rw [if_neg h0]
      intro hmf
      rcases List.mem_append.mp hmf with h | h
      exacts [hpre h, hpost h]
  · show (incrSendError (forget st f)).sockets.lookup f = none
    simpa [incrSendError] using forget_sockets_lookup_self st f
  · intro h1 h2
    subst h1; subst h2
    rw [hch2, hrm]
    simp

/-- Witness for C2 on a concrete registry: members `[0, 1, 2]` of channel
`"ch"` where connection 1's transport throws — 0 and 2 still receive the
payload, 1 is gone from the registry, and the error counter moved by one. -/
theorem C2_push_failure_isolation_witness :
    (processStreamResults
      { sockets := [(0, ⟨⟨.opened, false⟩, "ch", 5⟩), (1, ⟨⟨.opened, true⟩, "ch", 5⟩),
                    (2, ⟨⟨.opened, false⟩, "ch", 5⟩)],
        channels := [("ch", [0, 1, 2])], nextSocketId := 3, connectedCount := 3,
        sendErrorCount := 0, lastFirehoseId := none }
      [⟨"9-0", [("channel_id", "ch")]⟩]).2
      = ([0] ++ [2]).map (fun i => (i, pushMessage ⟨"9-0", [("channel_id", "ch")]⟩))
    ∧ (processStreamResults
      { sockets := [(0, ⟨⟨.opened, false⟩, "ch", 5⟩), (1, ⟨⟨.opened, true⟩, "ch", 5⟩),
                    (2, ⟨⟨.opened, false⟩, "ch", 5⟩)],
        channels := [("ch", [0, 1, 2])], nextSocketId := 3, connectedCount := 3,
        sendErrorCount := 0, lastFirehoseId := none }
      [⟨"9-0", [("channel_id", "ch")]⟩]).1.sendErrorCount = 0 + 1
    ∧ 1 ∉ membersOf (processStreamResults
      { sockets := [(0, ⟨⟨.opened, false⟩, "ch", 5⟩), (1, ⟨⟨.opened, true⟩, "ch", 5⟩),
                    (2, ⟨⟨.opened, false⟩, "ch", 5⟩)],
        channels := [("ch", [0, 1, 2])], nextSocketId := 3, connectedCount := 3,
        sendErrorCount := 0, lastFirehoseId := none }
      [⟨"9-0", [("channel_id", "ch")]⟩]).1 "ch"
    ∧ (processStreamResults
      { sockets := [(0, ⟨⟨.opened, false⟩, "ch", 5⟩), (1, ⟨⟨.opened, true⟩, "ch", 5⟩),
                    (2, ⟨⟨.opened, false⟩, "ch", 5⟩)],
        channels := [("ch", [0, 1, 2])], nextSocketId := 3, connectedCount := 3,
        sendErrorCount := 0, lastFirehoseId := none }
      [⟨"9-0", [("channel_id", "ch")]⟩]).1.sockets.lookup 1 = none
    ∧ ([0] = [] → [2] = [] → (processStreamResults
      { sockets := [(0, ⟨⟨.opened, false⟩, "ch", 5⟩), (1, ⟨⟨.opened, true⟩, "ch", 5⟩),
                    (2, ⟨⟨.opened, false⟩, "ch", 5⟩)],
        channels := [("ch", [0, 1, 2])], nextSocketId := 3, connectedCount := 3,
        sendErrorCount := 0, lastFirehoseId := none }
      [⟨"9-0", [("channel_id", "ch")]⟩]).1.channels.lookup "ch" = none) := by
  refine C2_push_failure_isolation _ _ "ch" [0] [2] 1 ⟨⟨.opened, true⟩, "ch", 5⟩
    (by decide) (by decide) (by decide) (by decide) rfl rfl (by decide) (by decide) ?_
  intro id hid
  have h2 : id = 0 ∨ id = 2 := by simpa using hid
  rcases h2 with rfl | rfl
  · exact ⟨⟨⟨.opened, false⟩, "ch", 5⟩, by decide, rfl⟩
  · exact ⟨⟨⟨.opened, false⟩, "ch", 5⟩, by decide, rfl⟩

/-! ## Authentication and connection upgrade -/

/-- Lookup skips a whole left part in which the key is absent. -/
theorem lookup_append_of_none {α β : Type} [BEq α] [LawfulBEq α]
    (l1 l2 : List (α × β)) (a : α) (h : l1.lookup a = none) :
    (l1 ++ l2).lookup a = l2.lookup a := by
  induction l1 with
  | nil => rfl
  | cons p t ih =>
    obtain ⟨k, v⟩ := p
    by_cases hk : (a == k) = true
    · rw [List.lookup] at h
      simp [hk] at h
    · have hk' : (a == k) = false := Bool.eq_false_iff.mpr hk
      rw [List.cons_append, lookup_cons_ne a k v _ hk']
      rw [lookup_cons_ne a k v t hk'] at h
      exact ih h

/-- After `addMember`, the channel's membership is the previous one (empty if
the channel was absent) with the new id appended. -/
theorem addMember_lookup (chs : List (String × List Nat)) (c : String) (id : Nat) :
    (addMember chs c id).lookup c = some (((chs.lookup c).getD []) ++ [id]) := by
  induction chs with
  | nil => simp [addMember, List.lookup]
  | cons p t ih =>
    obtain ⟨c', ids⟩ := p
    by_cases hc : c' = c
    · subst hc
      unfold addMember
      rw [if_pos rfl, lookup_cons_self, lookup_cons_self]
      rfl
    · have hne : (c == c') = false := beq_eq_false_iff_ne.mpr (fun h => hc h.symm)
      unfold addMember
      rw [if_neg hc, lookup_cons_ne c c' _ _ hne, lookup_cons_ne c c' ids t hne, ih]

/-- A decoded identity token as the gateway sees it: whether its signature
verified against the configured secret, and the claims' optional `channel`
field. -/
structure TokenT where
  validSig : Bool
  channelClaim : Option String
deriving DecidableEq, Repr

/-- One upgrade request: the token carried in the configured cookie (when
present) and the URL's `last_id` query parameter (when present). -/
structure UpgradeRequest where
  token : Option TokenT
  lastId : Option String
deriving DecidableEq, Repr

/-- The auth gate's application-level failure. -/
inductive AuthErr
  | authenticationFailed
deriving DecidableEq, Repr

/-- Modelled from the spec: `getJwtPayload` (AuthGate) of the missing gateway
implementation — "signals AuthenticationFailed when the token is missing,
malformed, has an invalid signature, or the decoded claims lack a `channel`
field"; on success returns the channel claim. -/
def getJwtPayload (req : UpgradeRequest) : Except AuthErr String :=
  match req.token with
  | none => .error .authenticationFailed
  | some t =>
    if t.validSig then
      match t.channelClaim with
      | some c => .ok c
      | none => .error .authenticationFailed
    else .error .authenticationFailed

/-- Effects of accepting one connection: whether the pong handler was
registered, and the catch-up range reads issued (log key, start, end). -/
structure WsConnEffects where
  pongHandlerAttached : Bool
  rangeReads : List (String × String × String)
deriving DecidableEq, Repr

/-- Modelled from the spec: `wsConnection` of the missing gateway
implementation — validate the token (the failure throws to the caller on this
non-upgrade path), register the connection under the token's channel claim
with `pongTs := now` and a pong handler attached, and, only when the URL
carried `last_id`, issue exactly one catch-up range read over the
channel-derived log key from `increment(last_id)` to the live-tip cursor when
one is known and to `"+"` otherwise. -/
def wsConnection (st : GatewayState) (now : Nat) (ws : Transport)
    (req : UpgradeRequest) : Except AuthErr (GatewayState × WsConnEffects) :=
  match getJwtPayload req with
  | .error e => .error e
  | .ok channel =>
    let inst : SocketInstance := { ws := ws, channel := channel, pongTs := now }
    let st' := (trackClient st channel inst).1
    let reads :=
      match req.lastId with
      | none => []
      | some lastId =>
        let endId :=
          match st.lastFirehoseId with
          | some tip => tip
          | none => "+"
        [(streamKeyBase ++ channel, incrementId lastId, endId)]
    .ok (st', { pongHandlerAttached := true, rangeReads := reads })

/-- Effects of handling one protocol-upgrade request. -/
structure UpgradeEffects where
  socketDestroyed : Bool
  upgraded : Bool
deriving DecidableEq, Repr

/-- Modelled from the spec: `httpUpgrade` of the missing gateway
implementation — run the auth gate synchronously; on failure destroy the raw
socket without completing the handshake and without touching the registry; on
success complete the protocol upgrade (the accepted connection is then handed
to `wsConnection`). -/
def httpUpgrade (st : GatewayState) (req : UpgradeRequest) :
    GatewayState × UpgradeEffects :=
  match getJwtPayload req with
  | .error _ => (st, { socketDestroyed := true, upgraded := false })
  | .ok _ => (st, { socketDestroyed := false, upgraded := true })

/-- Claim C3: for an upgrade request whose token is validly signed and carries
a `channel` claim, the connection is registered under that channel (socket
entry stored with `pongTs := now`, membership extended, pong handler
attached); no catch-up read is issued when the URL has no `last_id`, and with
`last_id` exactly one range read is issued against the channel-derived log key
from `increment(last_id)` to the live-tip cursor when known and `"+"`
otherwise. -/
theorem C3_wsConnection (st : GatewayState) (now : Nat) (ws : Transport)
    (req : UpgradeRequest) (t : TokenT) (c : String)
    (htok : req.token = some t) (hsig : t.validSig = true)
    (hclaim : t.channelClaim = some c)
    (hfresh : st.sockets.lookup st.nextSocketId = none) :
    wsConnection st now ws req =
      .ok ((trackClient st c ⟨ws, c, now⟩).1,
        { pongHandlerAttached := true
          rangeReads :=
            match req.lastId with
            | none => []
            | some lastId =>
              [(streamKeyBase ++ c, incrementId lastId,
                match st.lastFirehoseId with
                | some tip => tip
                | none => "+")] })
    ∧ (trackClient st c ⟨ws, c, now⟩).1.sockets.lookup st.nextSocketId
        = some ⟨ws, c, now⟩
    ∧ st.nextSocketId ∈ membersOf (trackClient st c ⟨ws, c, now⟩).1 c := by
  have hjwt : getJwtPayload req = .ok c := by
    simp [getJwtPayload, htok, hsig, hclaim]
  refine ⟨?_, ?_, ?_⟩
  · unfold wsConnection
    rw [hjwt]
  · show (st.sockets ++ [(st.nextSocketId, (⟨ws, c, now⟩ : SocketInstance))]).lookup
        st.nextSocketId = some ⟨ws, c, now⟩
    rw [lookup_append_of_none _ _ _ hfresh, lookup_cons_self]
  · unfold membersOf
    have hchs : (trackClient st c ⟨ws, c, now⟩).1.channels
        = addMember st.channels c st.nextSocketId := rfl
    rw [hchs, addMember_lookup]
    simp

/-- Witness for C3 at a concrete request mirroring the `valid JWT, with
lastId` test: the connection lands in the registry under its channel and one
range read from the incremented cursor to `"+"` is issued. -/
theorem C3_wsConnection_witness :
    wsConnection emptyGateway 99 ⟨.opened, false⟩ ⟨some ⟨true, some "ch"⟩, some "5-0"⟩ =
      .ok ({ sockets := [(0, ⟨⟨.opened, false⟩, "ch", 99⟩)], channels := [("ch", [0])],
             nextSocketId := 1, connectedCount := 1, sendErrorCount := 0,
             lastFirehoseId := none },
           { pongHandlerAttached := true, rangeReads := [("async-events-ch", "5-1", "+")] })
    ∧ (trackClient emptyGateway "ch" ⟨⟨.opened, false⟩, "ch", 99⟩).1.sockets.lookup 0
        = some ⟨⟨.opened, false⟩, "ch", 99⟩
    ∧ 0 ∈ membersOf (trackClient emptyGateway "ch" ⟨⟨.opened, false⟩, "ch", 99⟩).1 "ch" := by
  obtain ⟨h1, h2, h3⟩ := C3_wsConnection emptyGateway 99 ⟨.opened, false⟩
    ⟨some ⟨true, some "ch"⟩, some "5-0"⟩ ⟨true, some "ch"⟩ "ch" rfl rfl rfl (by decide)
  exact ⟨h1.trans (by rfl), h2, h3⟩

/-- Claim C4: an upgrade request whose token is missing, badly signed, or
lacking a `channel` claim has its raw socket destroyed without the protocol
upgrade completing and with the registry state returned untouched; on the
non-upgrade path the same failure surfaces to the caller as
`AuthenticationFailed`. -/
theorem C4_auth_failure (st : GatewayState) (req : UpgradeRequest)
    (h : req.token = none
      ∨ ∃ t, req.token = some t ∧ (t.validSig = false ∨ t.channelClaim = none)) :
    httpUpgrade st req = (st, { socketDestroyed := true, upgraded := false })
    ∧ ∀ now ws, wsConnection st now ws req = .error .authenticationFailed := by
  have hjwt : getJwtPayload req = .error .authenticationFailed := by
    rcases h with h | ⟨t, ht, h2⟩
    · simp [getJwtPayload, h]
    · rcases h2 with hv | hc
      · simp [getJwtPayload, ht, hv]
      · cases hb : t.validSig
        · simp [getJwtPayload, ht, hb]
        · simp [getJwtPayload, ht, hb, hc]
  refine ⟨?_, ?_⟩
  · unfold httpUpgrade
    rw [hjwt]
  · intro now ws
    unfold wsConnection
    rw [hjwt]

/-- Witness for C4 at a concrete invalidly-signed token: the socket is
destroyed, no upgrade happens, the state is unchanged, and the non-upgrade
path throws. -/
theorem C4_auth_failure_witness :
    httpUpgrade emptyGateway ⟨some ⟨false, some "ch"⟩, none⟩ =
      (emptyGateway, { socketDestroyed := true, upgraded := false })
    ∧ wsConnection emptyGateway 0 ⟨.opened, false⟩ ⟨some ⟨false, some "ch"⟩, none⟩ =
      .error .authenticationFailed := by
  have h := C4_auth_failure emptyGateway ⟨some ⟨false, some "ch"⟩, none⟩
    (Or.inr ⟨⟨false, some "ch"⟩, rfl, Or.inl rfl⟩)
  exact ⟨h.1, h.2 0 ⟨.opened, false⟩⟩

/-! ## Channel cleanup -/

/-- Whether a member socket counts as live for cleanup purposes: it has a
registry entry whose transport is open.  The repository's `closing sockets`
test pins this down: a channel whose only socket is closing is deleted by
cleanup, so closing transports do not survive it (the spec's §4.6 "or
closing-but-not-yet-closed" wording is contradicted by that test). -/
def liveForCleanup (st : GatewayState) (id : Nat) : Bool :=
  match st.sockets.lookup id with
  | some inst => inst.ws.readyState = .opened
  | none => false

/-- The retention predicate as spec §4.6 words it — "open or
closing-but-not-yet-closed" — kept only to compare the spec's sentence
against the behaviour the repository's tests mandate. -/
def liveForCleanupSpec (st : GatewayState) (id : Nat) : Bool :=
  match st.sockets.lookup id with
  | some inst => inst.ws.readyState = .opened || inst.ws.readyState = .closing
  | none => false

/-- Modelled from the spec: `cleanChannel` of the missing gateway
implementation — filters a channel's membership set down to its live sockets,
replaces the stored membership set with that filtered set, and deletes the
channel entirely if the filtered set is empty; a channel with no entry is
left alone.  Which sockets count as live follows the repository's
`cleanChannel` tests (only open transports), not spec §4.6's wording. -/
def cleanChannel (st : GatewayState) (c : String) : GatewayState :=
  match st.channels.lookup c with
  | none => st
  | some ids =>
    let ids' := ids.filter (liveForCleanup st)
    if ids' = [] then { st with channels := eraseChannel st.channels c }
    else { st with channels := setMembers st.channels c ids' }

/-- `eraseChannel` empties the erased key's lookup when keys are unique. -/
theorem eraseChannel_lookup_self (chs : List (String × List Nat)) (c : String)
    (hn : (chs.map Prod.fst).Nodup) : (eraseChannel chs c).lookup c = none := by
  induction chs with
  | nil => rfl
  | cons p t ih =>
    obtain ⟨c', ids⟩ := p
    simp only [List.map_cons, List.nodup_cons] at hn
    by_cases hc : c' = c
    · subst hc
      unfold eraseChannel
      rw [if_pos rfl]
      exact lookup_none_of_not_mem_keys t c' hn.1
    · have hne : (c == c') = false := beq_eq_false_iff_ne.mpr (fun h => hc h.symm)
      unfold eraseChannel
      rw [if_neg hc, lookup_cons_ne c c' ids _ hne]
      exact ih hn.2

/-- `setMembers` updates exactly the written key's lookup. -/
theorem setMembers_lookup_self (chs : List (String × List Nat)) (c : String)
    (ids l : List Nat) (hlk : chs.lookup c = some l) :
    (setMembers chs c ids).lookup c = some ids := by
  induction chs with
  | nil => cases hlk
  | cons p t ih =>
    obtain ⟨c', old⟩ := p
    by_cases hc : c' = c
    · subst hc
      unfold setMembers
      rw [if_pos rfl, lookup_cons_self]
    · have hne : (c == c') = false := beq_eq_false_iff_ne.mpr (fun h => hc h.symm)
      rw [lookup_cons_ne c c' old t hne] at hlk
      unfold setMembers
      rw [if_neg hc, lookup_cons_ne c c' old _ hne]
      exact ih hlk

/-- Claim C5 as amended: cleanup replaces a channel's membership with exactly
the members whose transport is open (still registered; closing and closed
sockets are dropped), deletes the channel entry outright when that filtered
set is empty, and is a no-op — not an error — on a channel with no registry
entry.  The claim's original "open or closing-but-not-yet-closed" subset is
refuted by `C5_cleanChannel_counterexample`. -/
theorem C5_cleanChannel (st : GatewayState) (c : String)
    (hnC : (st.channels.map Prod.fst).Nodup) :
    (st.channels.lookup c = none → cleanChannel st c = st)
    ∧ (∀ ids, st.channels.lookup c = some ids →
        (ids.filter (liveForCleanup st) ≠ [] →
          (cleanChannel st c).channels.lookup c = some (ids.filter (liveForCleanup st)))
        ∧ (ids.filter (liveForCleanup st) = [] →
          (cleanChannel st c).channels.lookup c = none)) := by
  constructor
  · intro h
    unfold cleanChannel
    rw [h]
  · intro ids hlk
    constructor
    · intro hne
      unfold cleanChannel
      rw [hlk]
      simp only [if_neg hne]
      exact setMembers_lookup_self st.channels c _ ids hlk
    · intro heq
      unfold cleanChannel
      rw [hlk]
      simp only [if_pos heq]
      exact eraseChannel_lookup_self st.channels c hnC

/-- Counterexample to C5 as originally claimed, at the exact input of the
repository's `closing sockets` test: the channel's one member has a
closing-but-not-yet-closed transport, so the claim's "open or closing"
subset is the non-empty `[0]` and the claim predicts the membership is
retained as `some [0]` — but cleanup deletes the channel entirely. -/
theorem C5_cleanChannel_counterexample :
    (GatewayState.channels
      { sockets := [(0, ⟨⟨.closing, false⟩, "ch", 5⟩)], channels := [("ch", [0])],
        nextSocketId := 1, connectedCount := 1, sendErrorCount := 0,
        lastFirehoseId := none }).lookup "ch" = some [0]
    ∧ [0].filter (liveForCleanupSpec
      { sockets := [(0, ⟨⟨.closing, false⟩, "ch", 5⟩)], channels := [("ch", [0])],
        nextSocketId := 1, connectedCount := 1, sendErrorCount := 0,
        lastFirehoseId := none }) = [0]
    ∧ (cleanChannel
      { sockets := [(0, ⟨⟨.closing, false⟩, "ch", 5⟩)], channels := [("ch", [0])],
        nextSocketId := 1, connectedCount := 1, sendErrorCount := 0,
        lastFirehoseId := none } "ch").channels.lookup "ch" = none := by
  decide

/-- Witness for the amended C5 on a concrete registry with all three
transport states at once: cleanup keeps exactly the open member, dropping
both the closing and the closed ones; cleaning an absent channel leaves the
state untouched. -/
theorem C5_cleanChannel_witness :
    (cleanChannel
      { sockets := [(0, ⟨⟨.opened, false⟩, "ch", 5⟩), (1, ⟨⟨.closing, false⟩, "ch", 5⟩),
                    (2, ⟨⟨.closed, false⟩, "ch", 5⟩)],
        channels := [("ch", [0, 1, 2])], nextSocketId := 3, connectedCount := 3,
        sendErrorCount := 0, lastFirehoseId := none } "ch").channels.lookup "ch"
      = some [0]
    ∧ cleanChannel
      { sockets := [(0, ⟨⟨.opened, false⟩, "ch", 5⟩), (1, ⟨⟨.closing, false⟩, "ch", 5⟩),
                    (2, ⟨⟨.closed, false⟩, "ch", 5⟩)],
        channels := [("ch", [0, 1, 2])], nextSocketId := 3, connectedCount := 3,
        sendErrorCount := 0, lastFirehoseId := none } "nope"
      = { sockets := [(0, ⟨⟨.opened, false⟩, "ch", 5⟩), (1, ⟨⟨.closing, false⟩, "ch", 5⟩),
                      (2, ⟨⟨.closed, false⟩, "ch", 5⟩)],
          channels := [("ch", [0, 1, 2])], nextSocketId := 3, connectedCount := 3,
          sendErrorCount := 0, lastFirehoseId := none } := by
  constructor
  · have h := ((C5_cleanChannel
      { sockets := [(0, ⟨⟨.opened, false⟩, "ch", 5⟩), (1, ⟨⟨.closing, false⟩, "ch", 5⟩),
                    (2, ⟨⟨.closed, false⟩, "ch", 5⟩)],
        channels := [("ch", [0, 1, 2])], nextSocketId := 3, connectedCount := 3,
        sendErrorCount := 0, lastFirehoseId := none } "ch" (by decide)).2
      [0, 1, 2] (by decide)).1 (by decide)
    exact h.trans (by decide)
  · exact (C5_cleanChannel
      { sockets := [(0, ⟨⟨.opened, false⟩, "ch", 5⟩), (1, ⟨⟨.closing, false⟩, "ch", 5⟩),
                    (2, ⟨⟨.closed, false⟩, "ch", 5⟩)],
        channels := [("ch", [0, 1, 2])], nextSocketId := 3, connectedCount := 3,
        sendErrorCount := 0, lastFirehoseId := none } "nope" (by decide)).1 (by decide)

/-! ## Liveness sweep -/

/-- Observable effects of one liveness sweep: which sockets were pinged and
which were forcibly terminated. -/
structure SweepEffects where
  pings : List Nat
  terminates : List Nat
deriving DecidableEq, Repr

/-- Whether a connection has been silent past the liveness timeout. -/
def staleAt (now threshold : Nat) (inst : SocketInstance) : Bool :=
  threshold < now - inst.pongTs

/-- Modelled from the spec and the sweep tests: the per-connection step of
`checkSockets` of the missing gateway implementation.  An open transport past
the timeout is terminated and forgotten without a ping; an open transport
within the timeout is pinged and kept; a fully closed transport is dropped
from the registry without a ping or a terminate (as the `closed sockets` test
requires); a half-closed transport is skipped. -/
def sweepStep (now threshold : Nat) (acc : GatewayState × SweepEffects)
    (p : Nat × SocketInstance) : GatewayState × SweepEffects :=
  match p.2.ws.readyState with
  | .opened =>
    if staleAt now threshold p.2 then
      (forget acc.1 p.1, { acc.2 with terminates := acc.2.terminates ++ [p.1] })
    else
      (acc.1, { acc.2 with pings := acc.2.pings ++ [p.1] })
  | .closed => (forget acc.1 p.1, acc.2)
  | _ => acc

/-- Modelled from the spec: `checkSockets` of the missing gateway
implementation — one sweep over a snapshot of the tracked connections. -/
def checkSockets (st : GatewayState) (now threshold : Nat) :
    GatewayState × SweepEffects :=
  st.sockets.foldl (sweepStep now threshold) (st, { pings := [], terminates := [] })

/-- A tracked entry the sweep pings: open and within the timeout. -/
def isFreshOpen (now threshold : Nat) (p : Nat × SocketInstance) : Bool :=
  match p.2.ws.readyState with
  | .opened => !staleAt now threshold p.2
  | _ => false

/-- A tracked entry the sweep terminates: open and past the timeout. -/
def isStaleOpen (now threshold : Nat) (p : Nat × SocketInstance) : Bool :=
  match p.2.ws.readyState with
  | .opened => staleAt now threshold p.2
  | _ => false

/-- A tracked entry the sweep forgets: stale-open or fully closed. -/
def isDead (now threshold : Nat) (p : Nat × SocketInstance) : Bool :=
  match p.2.ws.readyState with
  | .opened => staleAt now threshold p.2
  | .closed => true
  | _ => false

/-- Sequentially forgetting a list of tracked entries. -/
def forgetAll (st : GatewayState) (ps : List (Nat × SocketInstance)) : GatewayState :=
  ps.foldl (fun s p => forget s p.1) st

/-- The effect trace of a sweep: it pings exactly the fresh open entries and
terminates exactly the stale open ones, in registry order. -/
theorem sweep_effects (now threshold : Nat) (l : List (Nat × SocketInstance)) :
    ∀ (st0 : GatewayState) (eff0 : SweepEffects),
    (l.foldl (sweepStep now threshold) (st0, eff0)).2 =
      { pings := eff0.pings ++ (l.filter (isFreshOpen now threshold)).map Prod.fst
        terminates :=
          eff0.terminates ++ (l.filter (isStaleOpen now threshold)).map Prod.fst } := by
  induction l with
  | nil => intro st0 eff0; simp
  | cons p t ih =>
    intro st0 eff0
    obtain ⟨pid, pinst⟩ := p
    rw [List.foldl_cons]
    cases hrs : pinst.ws.readyState with
    | opened =>
      cases hstale : staleAt now threshold pinst with
      | true =>
        have hstep : sweepStep now threshold (st0, eff0) (pid, pinst)
            = (forget st0 pid,
               { eff0 with terminates := eff0.terminates ++ [pid] }) := by
          simp [sweepStep, hrs, hstale]
        rw [hstep, ih]
        have hf : isFreshOpen now threshold (pid, pinst) = false := by
          simp [isFreshOpen, hrs, hstale]
        have hs : isStaleOpen now threshold (pid, pinst) = true := by
          simp [isStaleOpen, hrs, hstale]
        simp [List.filter_cons, hf, hs]
      | false =>
        have hstep : sweepStep now threshold (st0, eff0) (pid, pinst)
            = (st0, { eff0 with pings := eff0.pings ++ [pid] }) := by
          simp [sweepStep, hrs, hstale]
        rw [hstep, ih]
        have hf : isFreshOpen now threshold (pid, pinst) = true := by
          simp [isFreshOpen, hrs, hstale]
        have hs : isStaleOpen now threshold (pid, pinst) = false := by
          simp [isStaleOpen, hrs, hstale]
        simp [List.filter_cons, hf, hs]
    | closed =>
      have hstep : sweepStep now threshold (st0, eff0) (pid, pinst)
          = (forget st0 pid, eff0) := by
        simp [sweepStep, hrs]
      rw [hstep, ih]
      have hf : isFreshOpen now threshold (pid, pinst) = false := by
        simp [isFreshOpen, hrs]
      have hs : isStaleOpen now threshold (pid, pinst) = false := by
        simp [isStaleOpen, hrs]
      simp [List.filter_cons, hf, hs]
    | connecting =>
      have hstep : sweepStep now threshold (st0, eff0) (pid, pinst) = (st0, eff0) := by
        simp [sweepStep, hrs]
      rw [hstep, ih]
      have hf : isFreshOpen now threshold (pid, pinst) = false := by
        simp [isFreshOpen, hrs]
      have hs : isStaleOpen now threshold (pid, pinst) = false := by
        simp [isStaleOpen, hrs]
      simp [List.filter_cons, hf, hs]
    | closing =>
      have hstep : sweepStep now threshold (st0, eff0) (pid, pinst) = (st0, eff0) := by
        simp [sweepStep, hrs]
      rw [hstep, ih]
      have hf : isFreshOpen now threshold (pid, pinst) = false := by
        simp [isFreshOpen, hrs]
      have hs : isStaleOpen now threshold (pid, pinst) = false := by
        simp [isStaleOpen, hrs]
      simp [List.filter_cons, hf, hs]

/-- The state after a sweep: exactly the dead entries (stale-open or closed)
are forgotten, in registry order. -/
theorem sweep_state (now threshold : Nat) (l : List (Nat × SocketInstance)) :
    ∀ (st0 : GatewayState) (eff0 : SweepEffects),
    (l.foldl (sweepStep now threshold) (st0, eff0)).1 =
      forgetAll st0 (l.filter (isDead now threshold)) := by
  induction l with
  | nil => intro st0 eff0; simp [forgetAll]
  | cons p t ih =>
    intro st0 eff0
    obtain ⟨pid, pinst⟩ := p
    rw [List.foldl_cons, List.filter_cons]
    cases hrs : pinst.ws.readyState with
    | opened =>
      cases hstale : staleAt now threshold pinst with
      | true =>
        have hstep : sweepStep now threshold (st0, eff0) (pid, pinst)
            = (forget st0 pid,
               { eff0 with terminates := eff0.terminates ++ [pid] }) := by
          simp [sweepStep, hrs, hstale]
        have hd : isDead now threshold (pid, pinst) = true := by
          simp [isDead, hrs, hstale]
        rw [hstep, ih, if_pos hd]
        rfl
      | false =>
        have hstep : sweepStep now threshold (st0, eff0) (pid, pinst)
            = (st0, { eff0 with pings := eff0.pings ++ [pid] }) := by
          simp [sweepStep, hrs, hstale]
        have hd : isDead now threshold (pid, pinst) = false := by
          simp [isDead, hrs, hstale]
        rw [hstep, ih, if_neg (by simp [hd])]
    | closed =>
      have hstep : sweepStep now threshold (st0, eff0) (pid, pinst)
          = (forget st0 pid, eff0) := by
        simp [sweepStep, hrs]
      have hd : isDead now threshold (pid, pinst) = true := by
        simp [isDead, hrs]
      rw [hstep, ih, if_pos hd]
      rfl
    | connecting =>
      have hstep : sweepStep now threshold (st0, eff0) (pid, pinst) = (st0, eff0) := by
        simp [sweepStep, hrs]
      have hd : isDead now threshold (pid, pinst) = false := by
        simp [isDead, hrs]
      rw [hstep, ih, if_neg (by simp [hd])]
    | closing =>
      have hstep : sweepStep now threshold (st0, eff0) (pid, pinst) = (st0, eff0) := by
        simp [sweepStep, hrs]
      have hd : isDead now threshold (pid, pinst) = false := by
        simp [isDead, hrs]
      rw [hstep, ih, if_neg (by simp [hd])]

/-- `forget` can only erase socket entries, never resurrect them. -/
theorem forget_sockets_lookup_none_mono (st : GatewayState) (j id : Nat)
    (h : st.sockets.lookup id = none) : (forget st j).sockets.lookup id = none := by
  by_cases hij : id = j
  · subst hij; exact forget_sockets_lookup_self st id
  · rw [forget_sockets_lookup_ne st id j hij]; exact h

/-- Erased socket entries stay erased through a whole `forgetAll`. -/
theorem forgetAll_sockets_lookup_none_mono (ps : List (Nat × SocketInstance)) :
    ∀ (st : GatewayState) (id : Nat), st.sockets.lookup id = none →
    (forgetAll st ps).sockets.lookup id = none := by
  induction ps with
  | nil => intro st id h; exact h
  | cons p t ih =>
    intro st id h
    exact ih (forget st p.1) id (forget_sockets_lookup_none_mono st p.1 id h)

/-- Forgetting entries with other keys does not disturb a socket's entry. -/
theorem forgetAll_sockets_lookup_ne (ps : List (Nat × SocketInstance)) :
    ∀ (st : GatewayState) (id : Nat), (∀ p ∈ ps, p.1 ≠ id) →
    (forgetAll st ps).sockets.lookup id = st.sockets.lookup id := by
  induction ps with
  | nil => intro st id _; rfl
  | cons p t ih =>
    intro st id h
    have h1 : (forgetAll (forget st p.1) t).sockets.lookup id
        = (forget st p.1).sockets.lookup id :=
      ih (forget st p.1) id (fun q hq => h q (List.mem_cons_of_mem p hq))
    have h2 : (forget st p.1).sockets.lookup id = st.sockets.lookup id :=
      forget_sockets_lookup_ne st id p.1 (fun he => h p (List.mem_cons_self p t) he.symm)
    exact h1.trans h2

/-- Any entry in the forgotten list ends up absent from the socket map. -/
theorem forgetAll_removes (st : GatewayState) (ps : List (Nat × SocketInstance))
    (id : Nat) (inst : SocketInstance) (hmem : (id, inst) ∈ ps) :
    (forgetAll st ps).sockets.lookup id = none := by
  obtain ⟨as, bs, rfl⟩ := List.append_of_mem hmem
  unfold forgetAll
  rw [List.foldl_append, List.foldl_cons]
  exact forgetAll_sockets_lookup_none_mono bs _ id
    (forget_sockets_lookup_self (List.foldl (fun s p => forget s p.1) st as) id)

/-- `removeMember` never introduces channel keys. -/
theorem removeMember_keys_sublist (chs : List (String × List Nat)) (c : String)
    (j : Nat) :
    List.Sublist ((removeMember chs c j).map Prod.fst) (chs.map Prod.fst) := by
  induction chs with
  | nil => simp [removeMember]
  | cons p t ih =>
    obtain ⟨c', ids⟩ := p
    by_cases hc : c' = c
    · subst hc
      unfold removeMember
      rw [if_pos rfl]
      by_cases hf : ids.filter (fun x => x ≠ j) = []
      · rw [if_pos hf]
        exact (List.sublist_cons_self c' (t.map Prod.fst))
      · rw [if_neg hf]
        exact List.Sublist.cons₂ c' (List.Sublist.refl _)
    · unfold removeMember
      rw [if_neg hc]
      exact List.Sublist.cons₂ c' ih

/-- `forget` preserves well-formedness of the registry. -/
theorem forget_WF (st : GatewayState) (id : Nat) (h : RegistryWF st) :
    RegistryWF (forget st id) := by
  unfold forget
  cases hl : st.sockets.lookup id with
  | none => exact h
  | some inst =>
    refine ⟨?_, ?_⟩
    · exact List.Nodup.sublist ((List.filter_sublist st.sockets).map Prod.fst) h.1
    · exact List.Nodup.sublist (removeMember_keys_sublist st.channels inst.channel id) h.2

/-- `forgetAll` preserves well-formedness of the registry. -/
theorem forgetAll_WF (ps : List (Nat × SocketInstance)) :
    ∀ (st : GatewayState), RegistryWF st → RegistryWF (forgetAll st ps) := by
  induction ps with
  | nil => intro st h; exact h
  | cons p t ih => intro st h; exact ih (forget st p.1) (forget_WF st p.1 h)

/-- In a unique-keys association list, the value at a key is unique. -/
theorem key_unique {α β : Type} [BEq α] [LawfulBEq α] (l : List (α × β))
    (hn : (l.map Prod.fst).Nodup) (a : α) (b c : β)
    (h1 : (a, b) ∈ l) (h2 : (a, c) ∈ l) : b = c := by
  have e1 := lookup_some_of_mem_nodup l a b hn h1
  have e2 := lookup_some_of_mem_nodup l a c hn h2
  exact Option.some.inj (e1.symm.trans e2)

/-- Removing a member from its channel really removes it from that channel's
membership (unique channel keys). -/
theorem removeMember_self_not_mem (chs : List (String × List Nat)) (c : String)
    (id : Nat) (hn : (chs.map Prod.fst).Nodup) :
    id ∉ ((removeMember chs c id).lookup c).getD [] := by
  induction chs with
  | nil => simp [removeMember]
  | cons p t ih =>
    obtain ⟨c', ids⟩ := p
    simp only [List.map_cons, List.nodup_cons] at hn
    by_cases hc : c' = c
    · subst hc
      unfold removeMember
      rw [if_pos rfl]
      by_cases hf : ids.filter (fun x => x ≠ id) = []
      · rw [if_pos hf, lookup_none_of_not_mem_keys t c' hn.1]
        simp
      · rw [if_neg hf, lookup_cons_self]
        intro hmem
        have := (List.mem_filter.mp hmem).2
        simp at this
    · have hne : (c == c') = false := beq_eq_false_iff_ne.mpr (fun h => hc h.symm)
      unfold removeMember
      rw [if_neg hc, lookup_cons_ne c c' ids _ hne]
      exact ih hn.2

/-- A membership found after `removeMember` was already there before (unique
channel keys): removal never adds members to any channel. -/
theorem mem_lookup_removeMember (chs : List (String × List Nat)) (c : String)
    (j : Nat) (d : String) (x : Nat) (hn : (chs.map Prod.fst).Nodup)
    (hx : x ∈ ((removeMember chs c j).lookup d).getD []) :
    x ∈ (chs.lookup d).getD [] := by
  induction chs with
  | nil => simp [removeMember] at hx
  | cons p t ih =>
    obtain ⟨c', ids⟩ := p
    simp only [List.map_cons, List.nodup_cons] at hn
    by_cases hc : c' = c
    · subst hc
      unfold removeMember at hx
      rw [if_pos rfl] at hx
      by_cases hd : d = c'
      · subst hd
        by_cases hf : ids.filter (fun x => x ≠ j) = []
        · rw [if_pos hf] at hx
          rw [lookup_none_of_not_mem_keys t d hn.1] at hx
          simp at hx
        · rw [if_neg hf, lookup_cons_self] at hx
          rw [lookup_cons_self]
          exact (List.mem_filter.mp hx).1
      · have hned : (d == c') = false := beq_eq_false_iff_ne.mpr hd
        rw [lookup_cons_ne d c' ids t hned]
        by_cases hf : ids.filter (fun x => x ≠ j) = []
        · rwa [if_pos hf] at hx
        · rwa [if_neg hf, lookup_cons_ne d c' _ t hned] at hx
    · unfold removeMember at hx
      rw [if_neg hc] at hx
      by_cases hd : d = c'
      · subst hd
        rw [lookup_cons_self] at hx ⊢
        exact hx
      · have hned : (d == c') = false := beq_eq_false_iff_ne.mpr hd
        rw [lookup_cons_ne d c' ids _ hned] at hx
        rw [lookup_cons_ne d c' ids t hned]
        exact ih hn.2 hx

/-- `forget` never adds a socket to any channel's membership. -/
theorem forget_not_mem_members (s : GatewayState) (j : Nat) (d : String) (x : Nat)
    (hn : (s.channels.map Prod.fst).Nodup)
    (h : x ∉ (s.channels.lookup d).getD []) :
    x ∉ ((forget s j).channels.lookup d).getD [] := by
  unfold forget
  cases hl : s.sockets.lookup j with
  | none => exact h
  | some inst =>
    intro hx
    exact h (mem_lookup_removeMember s.channels inst.channel j d x hn hx)

/-- Absence from a channel's membership is stable under `forgetAll`. -/
theorem forgetAll_not_mem_members (ps : List (Nat × SocketInstance)) :
    ∀ (s : GatewayState), RegistryWF s → ∀ (d : String) (x : Nat),
    x ∉ (s.channels.lookup d).getD [] →
    x ∉ ((forgetAll s ps).channels.lookup d).getD [] := by
  induction ps with
  | nil => intro s _ d x h; exact h
  | cons p t ih =>
    intro s hWF d x h
    exact ih (forget s p.1) (forget_WF s p.1 hWF) d x
      (forget_not_mem_members s p.1 d x hWF.2 h)

/-- Forgetting a tracked socket removes it from its own channel's
membership. -/
theorem forget_self_not_mem_members (s : GatewayState) (id : Nat)
    (inst : SocketInstance) (hlk : s.sockets.lookup id = some inst)
    (hn : (s.channels.map Prod.fst).Nodup) :
    id ∉ ((forget s id).channels.lookup inst.channel).getD [] := by
  unfold forget
  rw [hlk]
  exact removeMember_self_not_mem s.channels inst.channel id hn

/-- `membersOf` is the defaulted lookup of the channel map. -/
theorem membersOf_eq (st : GatewayState) (c : String) :
    membersOf st c = (st.channels.lookup c).getD [] := by
  unfold membersOf
  cases st.channels.lookup c <;> rfl

/-- Claim C6: one liveness sweep is a three-way case split per tracked
connection — open and past the timeout: terminated and removed without a
ping; open and within the timeout: exactly one ping and still registered;
transport not open: neither pinged nor terminated.  A sweep over an empty
registry returns unchanged without error. -/
theorem C6_checkSockets (st : GatewayState) (now threshold : Nat)
    (hnS : (st.sockets.map Prod.fst).Nodup) :
    (∀ id inst, (id, inst) ∈ st.sockets →
      (inst.ws.readyState = .opened → staleAt now threshold inst = true →
        id ∈ (checkSockets st now threshold).2.terminates
        ∧ id ∉ (checkSockets st now threshold).2.pings
        ∧ (checkSockets st now threshold).1.sockets.lookup id = none)
      ∧ (inst.ws.readyState = .opened → staleAt now threshold inst = false →
        (checkSockets st now threshold).2.pings.count id = 1
        ∧ id ∉ (checkSockets st now threshold).2.terminates
        ∧ (checkSockets st now threshold).1.sockets.lookup id = some inst)
      ∧ (inst.ws.readyState ≠ .opened →
        id ∉ (checkSockets st now threshold).2.pings
        ∧ id ∉ (checkSockets st now threshold).2.terminates))
    ∧ (st.sockets = [] →
        checkSockets st now threshold = (st, { pings := [], terminates := [] })) := by
  have heff : (checkSockets st now threshold).2 =
      { pings := (st.sockets.filter (isFreshOpen now threshold)).map Prod.fst
        terminates := (st.sockets.filter (isStaleOpen now threshold)).map Prod.fst } := by
    unfold checkSockets
    simpa using sweep_effects now threshold st.sockets st ⟨[], []⟩
  have hstate : (checkSockets st now threshold).1 =
      forgetAll st (st.sockets.filter (isDead now threshold)) :=
    sweep_state now threshold st.sockets st ⟨[], []⟩
  constructor
  · intro id inst hmem
    have hIn : ∀ (q : Nat × SocketInstance → Bool), q (id, inst) = true →
        id ∈ (st.sockets.filter q).map Prod.fst :=
      fun q hq => List.mem_map.mpr ⟨(id, inst), List.mem_filter.mpr ⟨hmem, hq⟩, rfl⟩
    have hNotIn : ∀ (q : Nat × SocketInstance → Bool), q (id, inst) = false →
        id ∉ (st.sockets.filter q).map Prod.fst := by
      intro q hq hin
      obtain ⟨a, hjf, hj⟩ := List.mem_map.mp hin
      obtain ⟨j, i2⟩ := a
      have hj2 : j = id := hj
      subst hj2
      obtain ⟨hmem2, hq2⟩ := List.mem_filter.mp hjf
      have hii : i2 = inst := key_unique st.sockets hnS j i2 inst hmem2 hmem
      subst hii
      rw [hq] at hq2
      simp at hq2
    refine ⟨?_, ?_, ?_⟩
    · intro hrs hstale
      have hso : isStaleOpen now threshold (id, inst) = true := by
        simp [isStaleOpen, hrs, hstale]
      have hfo : isFreshOpen now threshold (id, inst) = false := by
        simp [isFreshOpen, hrs, hstale]
      have hd : isDead now threshold (id, inst) = true := by
        simp [isDead, hrs, hstale]
      refine ⟨?_, ?_, ?_⟩
      · rw [heff]; exact hIn _ hso
      · rw [heff]; exact hNotIn _ hfo
      · rw [hstate]
        exact forgetAll_removes st _ id inst (List.mem_filter.mpr ⟨hmem, hd⟩)
    · intro hrs hstale
      have hfo : isFreshOpen now threshold (id, inst) = true := by
        simp [isFreshOpen, hrs, hstale]
      have hso : isStaleOpen now threshold (id, inst) = false := by
        simp [isStaleOpen, hrs, hstale]
      have hd : isDead now threshold (id, inst) = false := by
        simp [isDead, hrs, hstale]
      refine ⟨?_, ?_, ?_⟩
      · rw [heff]
        have hnd : ((st.sockets.filter (isFreshOpen now threshold)).map Prod.fst).Nodup :=
          List.Nodup.sublist ((List.filter_sublist st.sockets).map Prod.fst) hnS
        exact List.count_eq_one_of_mem hnd (hIn _ hfo)
      · rw [heff]; exact hNotIn _ hso
      · rw [hstate]
        have hkeys : ∀ p ∈ st.sockets.filter (isDead now threshold), p.1 ≠ id := by
          intro p hp he
          obtain ⟨hp1, hp2⟩ := List.mem_filter.mp hp
          obtain ⟨j, i2⟩ := p
          have hj2 : j = id := he
          subst hj2
          have hii : i2 = inst := key_unique st.sockets hnS j i2 inst hp1 hmem
          subst hii
          rw [hd] at hp2
          simp at hp2
        rw [forgetAll_sockets_lookup_ne _ st id hkeys]
        exact lookup_some_of_mem_nodup st.sockets id inst hnS hmem
    · intro hrs
      have hfo : isFreshOpen now threshold (id, inst) = false := by
        unfold isFreshOpen
        cases h2 : inst.ws.readyState
        · rfl
        · exact absurd h2 hrs
        · rfl
        · rfl
      have hso : isStaleOpen now threshold (id, inst) = false := by
        unfold isStaleOpen
        cases h2 : inst.ws.readyState
        · rfl
        · exact absurd h2 hrs
        · rfl
        · rfl
      exact ⟨by rw [heff]; exact hNotIn _ hfo, by rw [heff]; exact hNotIn _ hso⟩
  · intro hempty
    unfold checkSockets
    rw [hempty]
    rfl

/-- Witness for C6 on a concrete registry with all three cases at once (now
100, timeout 30): socket 1 (pong at 0) is terminated, unpinged and gone;
socket 0 (pong at 100) gets exactly one ping and stays; socket 2 (closing) is
neither pinged nor terminated. -/
theorem C6_checkSockets_witness :
    1 ∈ (checkSockets
      { sockets := [(0, ⟨⟨.opened, false⟩, "ch", 100⟩), (1, ⟨⟨.opened, false⟩, "ch", 0⟩),
                    (2, ⟨⟨.closing, false⟩, "ch", 100⟩)],
        channels := [("ch", [0, 1, 2])], nextSocketId := 3, connectedCount := 3,
        sendErrorCount := 0, lastFirehoseId := none } 100 30).2.terminates
    ∧ 1 ∉ (checkSockets
      { sockets := [(0, ⟨⟨.opened, false⟩, "ch", 100⟩), (1, ⟨⟨.opened, false⟩, "ch", 0⟩),
                    (2, ⟨⟨.closing, false⟩, "ch", 100⟩)],
        channels := [("ch", [0, 1, 2])], nextSocketId := 3, connectedCount := 3,
        sendErrorCount := 0, lastFirehoseId := none } 100 30).2.pings
    ∧ (checkSockets
      { sockets := [(0, ⟨⟨.opened, false⟩, "ch", 100⟩), (1, ⟨⟨.opened, false⟩, "ch", 0⟩),
                    (2, ⟨⟨.closing, false⟩, "ch", 100⟩)],
        channels := [("ch", [0, 1, 2])], nextSocketId := 3, connectedCount := 3,
        sendErrorCount := 0, lastFirehoseId := none } 100 30).1.sockets.lookup 1 = none
    ∧ (checkSockets
      { sockets := [(0, ⟨⟨.opened, false⟩, "ch", 100⟩), (1, ⟨⟨.opened, false⟩, "ch", 0⟩),
                    (2, ⟨⟨.closing, false⟩, "ch", 100⟩)],
        channels := [("ch", [0, 1, 2])], nextSocketId := 3, connectedCount := 3,
        sendErrorCount := 0, lastFirehoseId := none } 100 30).2.pings.count 0 = 1
    ∧ 0 ∉ (checkSockets
      { sockets := [(0, ⟨⟨.opened, false⟩, "ch", 100⟩), (1, ⟨⟨.opened, false⟩, "ch", 0⟩),
                    (2, ⟨⟨.closing, false⟩, "ch", 100⟩)],
        channels := [("ch", [0, 1, 2])], nextSocketId := 3, connectedCount := 3,
        sendErrorCount := 0, lastFirehoseId := none } 100 30).2.terminates
    ∧ (checkSockets
      { sockets := [(0, ⟨⟨.opened, false⟩, "ch", 100⟩), (1, ⟨⟨.opened, false⟩, "ch", 0⟩),
                    (2, ⟨⟨.closing, false⟩, "ch", 100⟩)],
        channels := [("ch", [0, 1, 2])], nextSocketId := 3, connectedCount := 3,
        sendErrorCount := 0, lastFirehoseId := none } 100 30).1.sockets.lookup 0
      = some ⟨⟨.opened, false⟩, "ch", 100⟩
    ∧ 2 ∉ (checkSockets
      { sockets := [(0, ⟨⟨.opened, false⟩, "ch", 100⟩), (1, ⟨⟨.opened, false⟩, "ch", 0⟩),
                    (2, ⟨⟨.closing, false⟩, "ch", 100⟩)],
        channels := [("ch", [0, 1, 2])], nextSocketId := 3, connectedCount := 3,
        sendErrorCount := 0, lastFirehoseId := none } 100 30).2.pings
    ∧ 2 ∉ (checkSockets
      { sockets := [(0, ⟨⟨.opened, false⟩, "ch", 100⟩), (1, ⟨⟨.opened, false⟩, "ch", 0⟩),
                    (2, ⟨⟨.closing, false⟩, "ch", 100⟩)],
        channels := [("ch", [0, 1, 2])], nextSocketId := 3, connectedCount := 3,
        sendErrorCount := 0, lastFirehoseId := none } 100 30).2.terminates := by
  have h := (C6_checkSockets
    { sockets := [(0, ⟨⟨.opened, false⟩, "ch", 100⟩), (1, ⟨⟨.opened, false⟩, "ch", 0⟩),
                  (2, ⟨⟨.closing, false⟩, "ch", 100⟩)],
      channels := [("ch", [0, 1, 2])], nextSocketId := 3, connectedCount := 3,
      sendErrorCount := 0, lastFirehoseId := none } 100 30 (by decide)).1
  have t1 := (h 1 ⟨⟨.opened, false⟩, "ch", 0⟩ (by decide)).1 rfl (by decide)
  have t0 := (h 0 ⟨⟨.opened, false⟩, "ch", 100⟩ (by decide)).2.1 rfl (by decide)
  have t2 := (h 2 ⟨⟨.closing, false⟩, "ch", 100⟩ (by decide)).2.2 (by decide)
  exact ⟨t1.1, t1.2.1, t1.2.2, t0.1, t0.2.1, t0.2.2, t2.1, t2.2⟩

/-- Claim C10: a tracked connection whose transport is fully closed is removed
from the socket registry and from its channel's membership by the sweep
itself — though it is neither pinged nor terminated — and a registry holding
only that connection is left empty; no close handler is involved (the model
runs none). -/
theorem C10_sweep_removes_closed (st : GatewayState) (now threshold : Nat)
    (id : Nat) (inst : SocketInstance)
    (hWF : RegistryWF st)
    (hmem : (id, inst) ∈ st.sockets)
    (hclosed : inst.ws.readyState = .closed) :
    (checkSockets st now threshold).1.sockets.lookup id = none
    ∧ id ∉ membersOf (checkSockets st now threshold).1 inst.channel
    ∧ id ∉ (checkSockets st now threshold).2.pings
    ∧ id ∉ (checkSockets st now threshold).2.terminates
    ∧ (st.sockets = [(id, inst)] → (checkSockets st now threshold).1.sockets = []) := by
  have heff : (checkSockets st now threshold).2 =
      { pings := (st.sockets.filter (isFreshOpen now threshold)).map Prod.fst
        terminates := (st.sockets.filter (isStaleOpen now threshold)).map Prod.fst } := by
    unfold checkSockets
    simpa using sweep_effects now threshold st.sockets st ⟨[], []⟩
  have hstate : (checkSockets st now threshold).1 =
      forgetAll st (st.sockets.filter (isDead now threshold)) :=
    sweep_state now threshold st.sockets st ⟨[], []⟩
  have hd : isDead now threshold (id, inst) = true := by simp [isDead, hclosed]
  have hmemf : (id, inst) ∈ st.sockets.filter (isDead now threshold) :=
    List.mem_filter.mpr ⟨hmem, hd⟩
  have hNotIn : ∀ (q : Nat × SocketInstance → Bool), q (id, inst) = false →
      id ∉ (st.sockets.filter q).map Prod.fst := by
    intro q hq hin
    obtain ⟨a, hjf, hj⟩ := List.mem_map.mp hin
    obtain ⟨j, i2⟩ := a
    have hj2 : j = id := hj
    subst hj2
    obtain ⟨hmem2, hq2⟩ := List.mem_filter.mp hjf
    have hii : i2 = inst := key_unique st.sockets hWF.1 j i2 inst hmem2 hmem
    subst hii
    rw [hq] at hq2
    simp at hq2
  refine ⟨?_, ?_, ?_, ?_, ?_⟩
  · rw [hstate]
    exact forgetAll_removes st _ id inst hmemf
  · rw [hstate, membersOf_eq]
    obtain ⟨as, bs, hsplit⟩ := List.append_of_mem hmemf
    rw [hsplit]
    unfold forgetAll
    rw [List.foldl_append, List.foldl_cons]
    have hfkeys : ((st.sockets.filter (isDead now threshold)).map Prod.fst).Nodup :=
      List.Nodup.sublist ((List.filter_sublist st.sockets).map Prod.fst) hWF.1
    rw [hsplit] at hfkeys
    have hnodupapp : (as.map Prod.fst ++ id :: bs.map Prod.fst).Nodup := by
      simpa using hfkeys
    have hdisj := List.disjoint_of_nodup_append hnodupapp
    have hasne : ∀ p ∈ as, p.1 ≠ id := by
      intro p hp he
      exact hdisj (List.mem_map.mpr ⟨p, hp, he⟩) (List.mem_cons_self _ _)
    have hlk1 : (List.foldl (fun s p => forget s p.1) st as).sockets.lookup id
        = some inst :=
      (forgetAll_sockets_lookup_ne as st id hasne).trans
        (lookup_some_of_mem_nodup st.sockets id inst hWF.1 hmem)
    have hWF1 : RegistryWF (List.foldl (fun s p => forget s p.1) st as) :=
      forgetAll_WF as st hWF
    exact forgetAll_not_mem_members bs (forget _ id) (forget_WF _ id hWF1)
      inst.channel id (forget_self_not_mem_members _ id inst hlk1 hWF1.2)
  · rw [heff]
    exact hNotIn _ (by simp [isFreshOpen, hclosed])
  · rw [heff]
    exact hNotIn _ (by simp [isStaleOpen, hclosed])
  · intro hsingle
    rw [hstate]
    have hfilter1 : st.sockets.filter (isDead now threshold) = [(id, inst)] := by
      rw [hsingle]
      simp [List.filter_cons, hd]
    rw [hfilter1]
    show (forget st id).sockets = []
    unfold forget
    have hlk : st.sockets.lookup id = some inst := by
      rw [hsingle]; exact lookup_cons_self id inst []
    rw [hlk]
    show st.sockets.filter (fun p => p.1 ≠ id) = []
    rw [hsingle]
    simp

/-- Witness for C10 on the one-connection registry of the `closed sockets`
test: after the sweep the socket map is empty, the channel has no member, and
no ping or terminate was issued. -/
theorem C10_sweep_removes_closed_witness :
    (checkSockets
      { sockets := [(0, ⟨⟨.closed, false⟩, "ch", 5⟩)], channels := [("ch", [0])],
        nextSocketId := 1, connectedCount := 1, sendErrorCount := 0,
        lastFirehoseId := none } 100 30).1.sockets.lookup 0 = none
    ∧ 0 ∉ membersOf (checkSockets
      { sockets := [(0, ⟨⟨.closed, false⟩, "ch", 5⟩)], channels := [("ch", [0])],
        nextSocketId := 1, connectedCount := 1, sendErrorCount := 0,
        lastFirehoseId := none } 100 30).1 "ch"
    ∧ 0 ∉ (checkSockets
      { sockets := [(0, ⟨⟨.closed, false⟩, "ch", 5⟩)], channels := [("ch", [0])],
        nextSocketId := 1, connectedCount := 1, sendErrorCount := 0,
        lastFirehoseId := none } 100 30).2.pings
    ∧ 0 ∉ (checkSockets
      { sockets := [(0, ⟨⟨.closed, false⟩, "ch", 5⟩)], channels := [("ch", [0])],
        nextSocketId := 1, connectedCount := 1, sendErrorCount := 0,
        lastFirehoseId := none } 100 30).2.terminates
    ∧ (checkSockets
      { sockets := [(0, ⟨⟨.closed, false⟩, "ch", 5⟩)], channels := [("ch", [0])],
        nextSocketId := 1, connectedCount := 1, sendErrorCount := 0,
        lastFirehoseId := none } 100 30).1.sockets = [] := by
  have h := C10_sweep_removes_closed
    { sockets := [(0, ⟨⟨.closed, false⟩, "ch", 5⟩)], channels := [("ch", [0])],
      nextSocketId := 1, connectedCount := 1, sendErrorCount := 0,
      lastFirehoseId := none } 100 30 0 ⟨⟨.closed, false⟩, "ch", 5⟩
    ⟨by decide, by decide⟩ (by decide) rfl
  exact ⟨h.1, h.2.1, h.2.2.1, h.2.2.2.1, h.2.2.2.2 rfl⟩
